import Mathlib

/-!
Verification of the multi-currency ledger engine (AccountsAPI / ExchangeAndFees /
Database).  Amounts are modelled as rationals, the SQLite tables as Lean lists,
and each mutating operation additionally records the trace of storage events it
issues (BEGIN / UPDATE / INSERT / COMMIT and the post-commit fee collection).
-/

namespace Crustlab

/-- Supported currencies, mirroring ZCurrency = z.enum(["PLN", "EUR", "USD"]).
PLN is the reference currency. -/
inductive Currency : Type
| PLN
| EUR
| USD
deriving DecidableEq, Repr

/-- Transaction types, mirroring the transaction_type column and the TS union. -/
inductive TxnType : Type
| deposit
| withdrawal
| transfer
| exchange
deriving DecidableEq, Repr

/-- Error kinds surfaced by the API promises: a zod validation rejection, an
account-not-found rejection, the insufficient-balance rejection, and the JS
TypeError raised by reading a property of undefined. -/
inductive Err : Type
| invalidInput
| notFound
| insufficientBalance
| typeErr
deriving DecidableEq, Repr

/-- Storage events issued through Database.run by a mutating operation, in
order.  collect is the in-memory ExchangeAndFees.collectServiceFee call. -/
inductive DbEvent : Type
| beginTx
| updateRow
| insertRow
| commitTx
| collect
deriving DecidableEq, Repr

/-- The ExchangeAndFees instance: service fee rate, the two fixed foreign
exchange rates (PLN per unit is 1 Zl by definition; the stored rates are the
amounts of foreign currency per PLN), and the running fee pool in PLN. -/
structure EAF : Type where
  serviceFee : ℚ
  rateEUR : ℚ
  rateUSD : ℚ
  totalCollectedFeesPLN : ℚ
deriving DecidableEq, Repr

/-- Lookup of this.exchangeRates[c].  The PLN entry is never read by
toExchangedAmount (its branches rule PLN out); it is set to 1 here. -/
def EAF.exchangeRate (e : EAF) : Currency → ℚ
| Currency.PLN => 1
| Currency.EUR => e.rateEUR
| Currency.USD => e.rateUSD

/-- ExchangeAndFees.toExchangedAmount: identity when the currencies coincide,
division by the source rate towards PLN, multiplication by the target rate from
PLN, and division-then-multiplication otherwise. -/
def EAF.toExchangedAmount (e : EAF) (amount : ℚ) (src dst : Currency) : ℚ :=
  if src = dst then amount
  else if dst = Currency.PLN then amount / e.exchangeRate src
  else if src = Currency.PLN then amount * e.exchangeRate dst
  else amount / e.exchangeRate src * e.exchangeRate dst

/-- ExchangeAndFees.collectServiceFee: convert the fee to PLN and add it to the
process-wide pool. -/
def EAF.collectServiceFee (e : EAF) (fee : ℚ) (c : Currency) : EAF :=
  { e with totalCollectedFeesPLN :=
      e.totalCollectedFeesPLN + e.toExchangedAmount fee c Currency.PLN }

/-- A row of the accounts table. -/
structure Account : Type where
  id : Nat
  user_id : String
  currency : Currency
  balance : ℚ
deriving DecidableEq, Repr

/-- A row of the transactions table, as inserted by the four mutating
operations (exchanged_to receives the converted numeric amount, as in the
exchange INSERT). -/
structure Txn : Type where
  user_id : String
  target_user_id : Option String
  issuer_account_id : Nat
  recipient_account_id : Option Nat
  transaction_type : TxnType
  amount : ℚ
  exchanged_to : Option ℚ
  currency : Currency
  target_currency : Option Currency
  fee_paid : ℚ
  made_at : Int
deriving DecidableEq, Repr

/-- The observable state: the accounts and transactions tables, the
ExchangeAndFees instance, and the clock used for the made_at default. -/
structure LedgerState : Type where
  accounts : List Account
  transactions : List Txn
  eaf : EAF
  now : Int
deriving DecidableEq, Repr

/-- The WHERE clause user_id = ? AND currency = ? shared by the account SELECT
and the balance UPDATE statements. -/
def accMatches (uid : String) (c : Currency) (a : Account) : Bool :=
  a.user_id == uid && a.currency == c

/-- Database.get on SELECT ... FROM accounts WHERE user_id = ? AND
currency = ?: the first matching row, if any. -/
def getAccountRow (s : LedgerState) (uid : String) (c : Currency) : Option Account :=
  s.accounts.find? (accMatches uid c)

/-- Database.run on UPDATE accounts SET balance = $b WHERE user_id = $u AND
currency = $c: every matching row receives the new balance. -/
def updateBalance (s : LedgerState) (uid : String) (c : Currency) (b : ℚ) : LedgerState :=
  { s with accounts :=
      s.accounts.map fun a => if accMatches uid c a then { a with balance := b } else a }

/-- Database.run on an INSERT INTO transactions statement: append one row. -/
def appendTxn (s : LedgerState) (t : Txn) : LedgerState :=
  { s with transactions := s.transactions ++ [t] }

/-- Hexadecimal digit test used by the UUID shape check. -/
def isHexDigit (ch : Char) : Bool :=
  ch.isDigit || (decide ('a' ≤ ch) && decide (ch ≤ 'f')) ||
    (decide ('A' ≤ ch) && decide (ch ≤ 'F'))

/-- ZUserID = z.string().uuid(): 36 characters, hyphens at positions 8, 13, 18
and 23 and hexadecimal digits elsewhere. -/
def isValidUserID (s : String) : Bool :=
  let cs := s.data
  cs.length == 36 &&
    (List.range 36).all fun i =>
      if i == 8 || i == 13 || i == 18 || i == 23 then cs.getD i ' ' == '-'
      else isHexDigit (cs.getD i ' ')

/-- Outcome of one queued mutating operation: the settled promise, the state
left behind, and the trace of storage events issued. -/
structure OpOut (α : Type) : Type where
  result : Except Err α
  state : LedgerState
  events : List DbEvent

/-- AccountsAPI.deposit: validate, load the account, compute the fee and the
final balance, then BEGIN, UPDATE the balance, INSERT one deposit row, COMMIT,
and collect the fee. -/
def deposit (s : LedgerState) (userID : String) (amount : ℚ) (currency : Currency) :
    OpOut Unit :=
  if ¬ isValidUserID userID then ⟨Except.error Err.invalidInput, s, []⟩
  else if amount ≤ 0 then ⟨Except.error Err.invalidInput, s, []⟩
  else
    match getAccountRow s userID currency with
    | none => ⟨Except.error Err.notFound, s, []⟩
    | some account =>
      let totalServiceFee := amount * s.eaf.serviceFee
      let finalBalance := account.balance + amount - totalServiceFee
      let s1 := updateBalance s userID currency finalBalance
      let s2 := appendTxn s1
        { user_id := userID, target_user_id := none,
          issuer_account_id := account.id, recipient_account_id := none,
          transaction_type := TxnType.deposit, amount := amount,
          exchanged_to := none, currency := currency, target_currency := none,
          fee_paid := totalServiceFee, made_at := s.now }
      let s3 := { s2 with eaf := s2.eaf.collectServiceFee totalServiceFee currency }
      ⟨Except.ok (), s3,
        [DbEvent.beginTx, DbEvent.updateRow, DbEvent.insertRow, DbEvent.commitTx,
         DbEvent.collect]⟩

/-- AccountsAPI.withdraw: validate, load the account, reject on insufficient
balance before BEGIN, otherwise UPDATE the balance, INSERT one withdrawal row,
COMMIT, collect the fee and resolve with the requested amount. -/
def withdraw (s : LedgerState) (userID : String) (amount : ℚ) (currency : Currency) :
    OpOut ℚ :=
  if ¬ isValidUserID userID then ⟨Except.error Err.invalidInput, s, []⟩
  else if amount ≤ 0 then ⟨Except.error Err.invalidInput, s, []⟩
  else
    match getAccountRow s userID currency with
    | none => ⟨Except.error Err.notFound, s, []⟩
    | some account =>
      let fee := amount * s.eaf.serviceFee
      let totalWithdraw := amount + fee
      if account.balance < totalWithdraw then
        ⟨Except.error Err.insufficientBalance, s, []⟩
      else
        let s1 := updateBalance s userID currency (account.balance - totalWithdraw)
        let s2 := appendTxn s1
          { user_id := userID, target_user_id := none,
            issuer_account_id := account.id, recipient_account_id := none,
            transaction_type := TxnType.withdrawal, amount := amount,
            exchanged_to := none, currency := currency, target_currency := none,
            fee_paid := fee, made_at := s.now }
        let s3 := { s2 with eaf := s2.eaf.collectServiceFee fee currency }
        ⟨Except.ok amount, s3,
          [DbEvent.beginTx, DbEvent.updateRow, DbEvent.insertRow, DbEvent.commitTx,
           DbEvent.collect]⟩

/-- AccountsAPI.transfer: validate, load both accounts, reject on insufficient
issuer balance before BEGIN, then two balance UPDATEs (each computed from the
balances read before the first UPDATE), one transfer INSERT, COMMIT, fee
collection, and resolution with the amount. -/
def transfer (s : LedgerState) (issuerUserID recipientUserID : String) (amount : ℚ)
    (currency : Currency) : OpOut ℚ :=
  if ¬ isValidUserID issuerUserID then ⟨Except.error Err.invalidInput, s, []⟩
  else if ¬ isValidUserID recipientUserID then ⟨Except.error Err.invalidInput, s, []⟩
  else if amount ≤ 0 then ⟨Except.error Err.invalidInput, s, []⟩
  else
    match getAccountRow s issuerUserID currency with
    | none => ⟨Except.error Err.notFound, s, []⟩
    | some issuerAccount =>
      match getAccountRow s recipientUserID currency with
      | none => ⟨Except.error Err.notFound, s, []⟩
      | some recipientAccount =>
        let fee := amount * s.eaf.serviceFee
        let totalWithdraw := amount + fee
        if issuerAccount.balance < totalWithdraw then
          ⟨Except.error Err.insufficientBalance, s, []⟩
        else
          let s1 := updateBalance s issuerUserID currency
            (issuerAccount.balance - totalWithdraw)
          let s2 := updateBalance s1 recipientUserID currency
            (recipientAccount.balance + amount)
          let s3 := appendTxn s2
            { user_id := issuerUserID, target_user_id := some recipientUserID,
              issuer_account_id := issuerAccount.id,
              recipient_account_id := some recipientAccount.id,
              transaction_type := TxnType.transfer, amount := amount,
              exchanged_to := none, currency := currency, target_currency := none,
              fee_paid := fee, made_at := s.now }
          let s4 := { s3 with eaf := s3.eaf.collectServiceFee fee currency }
          ⟨Except.ok amount, s4,
            [DbEvent.beginTx, DbEvent.updateRow, DbEvent.updateRow, DbEvent.insertRow,
             DbEvent.commitTx, DbEvent.collect]⟩

/-- AccountsAPI.exchange: validate, load the source and destination accounts of
the same user, reject on insufficient source balance before BEGIN, convert the
amount, then two balance UPDATEs (from pre-read balances), one exchange INSERT,
COMMIT and fee collection in the source currency. -/
def exchange (s : LedgerState) (userID : String) (amount : ℚ)
    (fromCurrency toCurrency : Currency) : OpOut Unit :=
  if ¬ isValidUserID userID then ⟨Except.error Err.invalidInput, s, []⟩
  else if amount ≤ 0 then ⟨Except.error Err.invalidInput, s, []⟩
  else
    match getAccountRow s userID fromCurrency with
    | none => ⟨Except.error Err.notFound, s, []⟩
    | some sourceAccount =>
      match getAccountRow s userID toCurrency with
      | none => ⟨Except.error Err.notFound, s, []⟩
      | some destinationAccount =>
        let fee := amount * s.eaf.serviceFee
        let totalWithdraw := amount + fee
        if sourceAccount.balance < totalWithdraw then
          ⟨Except.error Err.insufficientBalance, s, []⟩
        else
          let exchanged := s.eaf.toExchangedAmount amount fromCurrency toCurrency
          let s1 := updateBalance s userID fromCurrency
            (sourceAccount.balance - totalWithdraw)
          let s2 := updateBalance s1 userID toCurrency
            (destinationAccount.balance + exchanged)
          let s3 := appendTxn s2
            { user_id := userID, target_user_id := none,
              issuer_account_id := sourceAccount.id,
              recipient_account_id := some destinationAccount.id,
              transaction_type := TxnType.exchange, amount := amount,
              exchanged_to := some exchanged, currency := fromCurrency,
              target_currency := some toCurrency, fee_paid := fee,
              made_at := s.now }
          let s4 := { s3 with eaf := s3.eaf.collectServiceFee fee fromCurrency }
          ⟨Except.ok (), s4,
            [DbEvent.beginTx, DbEvent.updateRow, DbEvent.updateRow, DbEvent.insertRow,
             DbEvent.commitTx, DbEvent.collect]⟩

/-- AccountsAPI.getBalance: validate, SELECT the row, then read its balance
property; when the row is absent the JS property read of undefined raises a
TypeError, modelled as Err.typeErr. -/
def getBalance (s : LedgerState) (userID : String) (currency : Currency) :
    Except Err ℚ :=
  if ¬ isValidUserID userID then Except.error Err.invalidInput
  else
    match getAccountRow s userID currency with
    | none => Except.error Err.typeErr
    | some a => Except.ok a.balance

/-- AccountsAPI.getAccount: validate, SELECT the row, return it as-is (possibly
undefined, i.e. none). -/
def getAccount (s : LedgerState) (userID : String) (currency : Currency) :
    Except Err (Option Account) :=
  if ¬ isValidUserID userID then Except.error Err.invalidInput
  else Except.ok (getAccountRow s userID currency)

/-- Options of AccountsAPI.getUserProfits. -/
structure ProfitsOptions : Type where
  userID : String
  transactionTypes : Option (List TxnType)
  startDate : Option Int
  endDate : Option Int

/-- Result record of AccountsAPI.getUserProfits. -/
structure ProfitResults : Type where
  totalProfits : ℚ
  totalFees : ℚ
  transactions : List Txn
deriving DecidableEq, Repr

/-- SQL clause ($start_date IS NULL OR made_at >= $start_date). -/
def dateLowerOk (sd : Option Int) (madeAt : Int) : Bool :=
  match sd with
  | none => true
  | some d => decide (d ≤ madeAt)

/-- SQL clause ($end_date IS NULL OR made_at <= $end_date). -/
def dateUpperOk (ed : Option Int) (madeAt : Int) : Bool :=
  match ed with
  | none => true
  | some d => decide (madeAt ≤ d)

/-- The WHERE clause of the getUserProfits SELECT with SQL operator precedence:
user_id = $u OR (target_user_id = $u AND the two date clauses) — AND binds
tighter than OR, so the date range constrains only the counterparty branch. -/
def sqlProfitsMatch (o : ProfitsOptions) (t : Txn) : Bool :=
  t.user_id == o.userID ||
    (t.target_user_id == some o.userID &&
      dateLowerOk o.startDate t.made_at && dateUpperOk o.endDate t.made_at)

/-- The toPLN helper inside getUserProfits: the transaction amount and fee
converted from the transaction currency to PLN. -/
def toPLN (e : EAF) (t : Txn) : ℚ × ℚ :=
  (e.toExchangedAmount t.amount t.currency Currency.PLN,
   e.toExchangedAmount t.fee_paid t.currency Currency.PLN)

/-- The loop-top continue: options.transactionTypes is present and does not
contain the transaction type. -/
def typeSkips (types : Option (List TxnType)) (ty : TxnType) : Bool :=
  match types with
  | none => false
  | some ts => !(ts.contains ty)

/-- One iteration of the getUserProfits accumulation loop over a matched
transaction (the transfer case applies its incoming branch and then its
outgoing branch, so a self-transfer is pushed twice). -/
def profitStep (e : EAF) (uid : String) (types : Option (List TxnType))
    (r : ProfitResults) (t : Txn) : ProfitResults :=
  if typeSkips types t.transaction_type then r
  else
    match t.transaction_type with
    | TxnType.deposit =>
      { totalProfits := r.totalProfits + ((toPLN e t).1 - (toPLN e t).2),
        totalFees := r.totalFees + (toPLN e t).2,
        transactions := r.transactions ++ [t] }
    | TxnType.withdrawal =>
      { totalProfits := r.totalProfits - ((toPLN e t).1 + (toPLN e t).2),
        totalFees := r.totalFees + (toPLN e t).2,
        transactions := r.transactions ++ [t] }
    | TxnType.transfer =>
      let r1 :=
        if t.target_user_id == some uid then
          { r with totalProfits := r.totalProfits + (toPLN e t).1,
                   transactions := r.transactions ++ [t] }
        else r
      if t.user_id == uid then
        { totalProfits := r1.totalProfits - ((toPLN e t).1 + (toPLN e t).2),
          totalFees := r1.totalFees + (toPLN e t).2,
          transactions := r1.transactions ++ [t] }
      else r1
    | TxnType.exchange =>
      { totalProfits := r.totalProfits,
        totalFees := r.totalFees + (toPLN e t).2,
        transactions := r.transactions ++ [t] }

/-- AccountsAPI.getUserProfits: validate the options, run the SELECT with its
actual WHERE clause, then fold the accumulation loop from zero totals. -/
def getUserProfits (s : LedgerState) (o : ProfitsOptions) : Except Err ProfitResults :=
  if ¬ isValidUserID o.userID then Except.error Err.invalidInput
  else
    Except.ok
      ((s.transactions.filter (sqlProfitsMatch o)).foldl
        (profitStep s.eaf o.userID o.transactionTypes) ⟨0, 0, []⟩)

/-- Per-transaction contribution of the loop body: the profit delta, the fee
delta, and the records pushed, as functions of the roles the user plays. -/
def txnContrib (e : EAF) (uid : String) (types : Option (List TxnType)) (t : Txn) :
    ℚ × ℚ × List Txn :=
  if typeSkips types t.transaction_type then (0, 0, [])
  else
    match t.transaction_type with
    | TxnType.deposit => ((toPLN e t).1 - (toPLN e t).2, (toPLN e t).2, [t])
    | TxnType.withdrawal => (-((toPLN e t).1 + (toPLN e t).2), (toPLN e t).2, [t])
    | TxnType.transfer =>
      ((if t.target_user_id == some uid then (toPLN e t).1 else 0) +
        (if t.user_id == uid then -((toPLN e t).1 + (toPLN e t).2) else 0),
       (if t.user_id == uid then (toPLN e t).2 else 0),
       (if t.target_user_id == some uid then [t] else []) ++
         (if t.user_id == uid then [t] else []))
    | TxnType.exchange => (0, (toPLN e t).2, [t])

/-- Concatenation of the pushed records across a transaction list. -/
def pushesOf (e : EAF) (uid : String) (types : Option (List TxnType)) :
    List Txn → List Txn
| [] => []
| t :: ts => (txnContrib e uid types t).2.2 ++ pushesOf e uid types ts

/-- The match predicate the claim describes: the user is the source or the
named transfer counterparty, with the time-range filter applied uniformly to
every matched transaction. -/
def claimProfitsMatch (o : ProfitsOptions) (t : Txn) : Bool :=
  (t.user_id == o.userID || t.target_user_id == some o.userID) &&
    dateLowerOk o.startDate t.made_at && dateUpperOk o.endDate t.made_at

/-- The aggregation the claim describes: filter by claimProfitsMatch, then sum
the per-type contributions (which coincide with the accumulation loop). -/
def getUserProfitsClaimed (s : LedgerState) (o : ProfitsOptions) :
    Except Err ProfitResults :=
  if ¬ isValidUserID o.userID then Except.error Err.invalidInput
  else
    let l := s.transactions.filter (claimProfitsMatch o)
    Except.ok
      { totalProfits :=
          (l.map fun t => (txnContrib s.eaf o.userID o.transactionTypes t).1).sum,
        totalFees :=
          (l.map fun t => (txnContrib s.eaf o.userID o.transactionTypes t).2.1).sum,
        transactions := pushesOf s.eaf o.userID o.transactionTypes l }

/-- Environment as seen by the ExchangeAndFees constructor: whether
process.env.SERVICE_FEE was already set before construction, and the parseFloat
results of the three variables after loadEnvFile (none models NaN, i.e. a
missing or non-numeric variable). -/
structure EnvConfig : Type where
  serviceFeePreset : Bool
  serviceFee : Option ℚ
  exchangeEUR : Option ℚ
  exchangeUSD : Option ℚ

/-- Fields of the constructed ExchangeAndFees instance relevant at startup:
the stored service fee (none models NaN) and the stored exchange rates. -/
structure EAFInit : Type where
  serviceFee : Option ℚ
  rateEUR : ℚ
  rateUSD : ℚ
deriving DecidableEq, Repr

/-- ZNumber.safeParse on a parseFloat result: success iff the value is a real
number (not NaN) and positive. -/
def validRate (v : Option ℚ) : Bool :=
  match v with
  | none => false
  | some q => decide (0 < q)

/-- The ExchangeAndFees constructor: when SERVICE_FEE is already present in the
environment the whole loading block is skipped and the field initializers
remain (serviceFee 0, rates -1); otherwise the service fee is stored without
any validation and each exchange rate (EUR first, then USD) must pass the
positive-number guard or construction throws. -/
def constructEAF (env : EnvConfig) : Except Unit EAFInit :=
  if env.serviceFeePreset then Except.ok ⟨some 0, -1, -1⟩
  else
    if ¬ validRate env.exchangeEUR then Except.error ()
    else if ¬ validRate env.exchangeUSD then Except.error ()
    else
      Except.ok ⟨env.serviceFee, env.exchangeEUR.getD 0, env.exchangeUSD.getD 0⟩

/-- A mutating command submitted to the operation queue. -/
inductive Cmd : Type
| deposit (userID : String) (amount : ℚ) (currency : Currency)
| withdraw (userID : String) (amount : ℚ) (currency : Currency)
| transfer (issuerUserID recipientUserID : String) (amount : ℚ) (currency : Currency)
| exchange (userID : String) (amount : ℚ) (fromCurrency toCurrency : Currency)

/-- Run one command to completion: the state it leaves and the storage events
it issued. -/
def runCmd (s : LedgerState) : Cmd → LedgerState × List DbEvent
| Cmd.deposit uid a c => ((deposit s uid a c).state, (deposit s uid a c).events)
| Cmd.withdraw uid a c => ((withdraw s uid a c).state, (withdraw s uid a c).events)
| Cmd.transfer iu ru a c => ((transfer s iu ru a c).state, (transfer s iu ru a c).events)
| Cmd.exchange uid a f t => ((exchange s uid a f t).state, (exchange s uid a f t).events)

/-- State transition of one command. -/
def applyCmd (s : LedgerState) (c : Cmd) : LedgerState :=
  (runCmd s c).1

/-- Modelled from the spec: the Serialized Operation Queue (the runtime
behavior of the external queue package constructed in AccountsAPI.open is not
under src/).  The spec defines it as a single logical lane that executes
submitted units of work strictly one at a time, in FIFO submission order: the
head job runs to completion before the next submitted job starts. -/
def runQueue : LedgerState → List Cmd → LedgerState
| s, [] => s
| s, c :: cs => runQueue (applyCmd s c) cs

/-- Fee recorded by a committed transaction row, converted to PLN. -/
def feeOfTxn (e : EAF) (t : Txn) : ℚ :=
  e.toExchangedAmount t.fee_paid t.currency Currency.PLN

/-- The fee-collection discipline of an event trace: either no commit happened
and no fee was collected, or the trace ends with a commit immediately followed
by the single fee collection. -/
def collectAfterCommit (l : List DbEvent) : Prop :=
  l = [] ∨
    ∃ l₁ : List DbEvent, l = l₁ ++ [DbEvent.commitTx, DbEvent.collect] ∧
      DbEvent.commitTx ∉ l₁ ∧ DbEvent.collect ∉ l₁

/-! Concrete data reused by the witness theorems. -/

/-- A syntactically valid user id. -/
def wUID : String := "be3d0758-65eb-4365-9a2f-cefa294feaf9"

/-- A second, distinct syntactically valid user id. -/
def wUID2 : String := "11111111-2222-4333-8444-555555555555"

/-- A configured policy: 5 percent service fee, EUR rate 9/2, USD rate 4. -/
def wEAF : EAF := ⟨1/20, 9/2, 4, 0⟩

/-- PLN account of the first user. -/
def wAcct : Account := ⟨1, wUID, Currency.PLN, 1000⟩

/-- PLN account of the second user. -/
def wAcct2 : Account := ⟨2, wUID2, Currency.PLN, 50⟩

/-- USD account of the first user. -/
def wAcctUSD : Account := ⟨3, wUID, Currency.USD, 7⟩

/-- A small populated ledger state. -/
def wState : LedgerState := ⟨[wAcct, wAcct2, wAcctUSD], [], wEAF, 0⟩

/-- A committed deposit record of the first user, made at time 0. -/
def cTxn : Txn :=
  { user_id := wUID, target_user_id := none, issuer_account_id := 1,
    recipient_account_id := none, transaction_type := TxnType.deposit, amount := 100,
    exchanged_to := none, currency := Currency.PLN, target_currency := none,
    fee_paid := 5, made_at := 0 }

/-- A ledger state whose log holds only that deposit. -/
def cState : LedgerState := ⟨[wAcct], [cTxn], wEAF, 20⟩

/-- A profits query for the first user restricted to transactions made at time
10 or later — which excludes the deposit made at time 0. -/
def cOpts : ProfitsOptions := ⟨wUID, none, some 10, none⟩

/-- Environment for the constructor witness: nothing preloaded, all three
variables present and numeric. -/
def wEnv : EnvConfig := ⟨false, some 3, some 2, some 4⟩

/-- The instance the constructor builds from wEnv. -/
def wInit : EAFInit := ⟨some 3, 2, 4⟩

/-- A one-command queue load for the fee-pool witness. -/
def wCmds : List Cmd := [Cmd.deposit wUID 100 Currency.PLN]

/-- Relation between the state before and after one queued command: the
command appends some list of transaction rows, bumps the fee pool by exactly
the PLN value of their fees, preserves the configured rates, and (for a
non-negative fee rate) appends only non-negative fees. -/
def StepSpec (s s2 : LedgerState) : Prop :=
  ∃ ts : List Txn,
    s2.transactions = s.transactions ++ ts ∧
    s2.eaf.totalCollectedFeesPLN =
      s.eaf.totalCollectedFeesPLN + (ts.map (feeOfTxn s.eaf)).sum ∧
    s2.eaf.serviceFee = s.eaf.serviceFee ∧
    s2.eaf.rateEUR = s.eaf.rateEUR ∧
    s2.eaf.rateUSD = s.eaf.rateUSD ∧
    (0 ≤ s.eaf.serviceFee → ∀ t ∈ ts, 0 ≤ t.fee_paid)

/-! Structural lemmas about the storage primitives. -/

/-- Changing the balance of a row does not change whether it matches. -/
@[simp]
lemma accMatches_setBalance (uid : String) (c : Currency) (b : ℚ) (a : Account) :
    accMatches uid c { a with balance := b } = accMatches uid c a := rfl

@[simp]
lemma updateBalance_transactions (s : LedgerState) (uid : String) (c : Currency) (b : ℚ) :
    (updateBalance s uid c b).transactions = s.transactions := rfl

@[simp]
lemma updateBalance_eaf (s : LedgerState) (uid : String) (c : Currency) (b : ℚ) :
    (updateBalance s uid c b).eaf = s.eaf := rfl

lemma updateBalance_accounts (s : LedgerState) (uid : String) (c : Currency) (b : ℚ) :
    (updateBalance s uid c b).accounts =
      s.accounts.map fun a => if accMatches uid c a then { a with balance := b } else a :=
  rfl

@[simp]
lemma appendTxn_transactions (s : LedgerState) (t : Txn) :
    (appendTxn s t).transactions = s.transactions ++ [t] := rfl

@[simp]
lemma appendTxn_eaf (s : LedgerState) (t : Txn) : (appendTxn s t).eaf = s.eaf := rfl

@[simp]
lemma appendTxn_accounts (s : LedgerState) (t : Txn) :
    (appendTxn s t).accounts = s.accounts := rfl

lemma getAccountRow_eq (s : LedgerState) (uid : String) (c : Currency) :
    getAccountRow s uid c = s.accounts.find? (accMatches uid c) := rfl

/-- Reading back the updated key: the first matching row now carries the new
balance. -/
lemma find_update_self (uid : String) (c : Currency) (b : ℚ) (l : List Account) :
    (l.map fun a => if accMatches uid c a then { a with balance := b } else a).find?
        (accMatches uid c) =
      (l.find? (accMatches uid c)).map fun a => { a with balance := b } := by
  induction l with
  | nil => rfl
  | cons a l ih =>
    by_cases h : accMatches uid c a
    · simp [List.find?_cons, h]
    · simp [List.find?_cons, h, ih]

/-- Reading a different key: an update of another (user, currency) key leaves
the lookup unchanged. -/
lemma find_update_other (uid uid2 : String) (c c2 : Currency) (b : ℚ)
    (h : ¬ (uid = uid2 ∧ c = c2)) (l : List Account) :
    (l.map fun a => if accMatches uid2 c2 a then { a with balance := b } else a).find?
        (accMatches uid c) =
      l.find? (accMatches uid c) := by
  induction l with
  | nil => rfl
  | cons a l ih =>
    by_cases h2 : accMatches uid2 c2 a
    · by_cases h1 : accMatches uid c a
      · exfalso
        apply h
        have e1 : a.user_id = uid ∧ a.currency = c := by
          simpa [accMatches] using h1
        have e2 : a.user_id = uid2 ∧ a.currency = c2 := by
          simpa [accMatches] using h2
        exact ⟨e1.1 ▸ e2.1, e1.2 ▸ e2.2⟩
      · simp [List.find?_cons, h1, h2, ih]
    · by_cases h1 : accMatches uid c a
      · simp [List.find?_cons, h1, h2]
      · simp [List.find?_cons, h1, h2, ih]

/-! Branch evaluation lemmas for the mutating operations. -/

/-- The deposit success branch, written out. -/
lemma deposit_ok (s : LedgerState) (uid : String) (amt : ℚ) (c : Currency)
    (acct : Account) (hu : isValidUserID uid = true) (ha2 : ¬ amt ≤ 0)
    (hacc : getAccountRow s uid c = some acct) :
    deposit s uid amt c =
      ⟨Except.ok (),
        ⟨(updateBalance s uid c (acct.balance + amt - amt * s.eaf.serviceFee)).accounts,
         s.transactions ++
           [{ user_id := uid, target_user_id := none, issuer_account_id := acct.id,
              recipient_account_id := none, transaction_type := TxnType.deposit,
              amount := amt, exchanged_to := none, currency := c, target_currency := none,
              fee_paid := amt * s.eaf.serviceFee, made_at := s.now }],
         s.eaf.collectServiceFee (amt * s.eaf.serviceFee) c, s.now⟩,
        [DbEvent.beginTx, DbEvent.updateRow, DbEvent.insertRow, DbEvent.commitTx,
         DbEvent.collect]⟩ := by
  unfold deposit
  rw [if_neg (not_not_intro hu), if_neg ha2, hacc]
  rfl

/-- The withdraw insufficient-balance branch, written out. -/
lemma withdraw_insufficient (s : LedgerState) (uid : String) (amt : ℚ) (c : Currency)
    (acct : Account) (hu : isValidUserID uid = true) (ha2 : ¬ amt ≤ 0)
    (hacc : getAccountRow s uid c = some acct)
    (hlt : acct.balance < amt + amt * s.eaf.serviceFee) :
    withdraw s uid amt c = ⟨Except.error Err.insufficientBalance, s, []⟩ := by
  unfold withdraw
  rw [if_neg (not_not_intro hu), if_neg ha2, hacc]
  exact if_pos hlt

/-- The withdraw success branch, written out. -/
lemma withdraw_ok (s : LedgerState) (uid : String) (amt : ℚ) (c : Currency)
    (acct : Account) (hu : isValidUserID uid = true) (ha2 : ¬ amt ≤ 0)
    (hacc : getAccountRow s uid c = some acct)
    (hge : ¬ acct.balance < amt + amt * s.eaf.serviceFee) :
    withdraw s uid amt c =
      ⟨Except.ok amt,
        ⟨(updateBalance s uid c
            (acct.balance - (amt + amt * s.eaf.serviceFee))).accounts,
         s.transactions ++
           [{ user_id := uid, target_user_id := none, issuer_account_id := acct.id,
              recipient_account_id := none, transaction_type := TxnType.withdrawal,
              amount := amt, exchanged_to := none, currency := c, target_currency := none,
              fee_paid := amt * s.eaf.serviceFee, made_at := s.now }],
         s.eaf.collectServiceFee (amt * s.eaf.serviceFee) c, s.now⟩,
        [DbEvent.beginTx, DbEvent.updateRow, DbEvent.insertRow, DbEvent.commitTx,
         DbEvent.collect]⟩ := by
  unfold withdraw
  rw [if_neg (not_not_intro hu), if_neg ha2, hacc]
  exact if_neg hge

/-- The transfer insufficient-balance branch, written out. -/
lemma transfer_insufficient (s : LedgerState) (iu ru : String) (amt : ℚ) (c : Currency)
    (iacc racc : Account) (hui : isValidUserID iu = true)
    (hur : isValidUserID ru = true) (ha2 : ¬ amt ≤ 0)
    (hi : getAccountRow s iu c = some iacc) (hr : getAccountRow s ru c = some racc)
    (hlt : iacc.balance < amt + amt * s.eaf.serviceFee) :
    transfer s iu ru amt c = ⟨Except.error Err.insufficientBalance, s, []⟩ := by
  unfold transfer
  rw [if_neg (not_not_intro hui), if_neg (not_not_intro hur), if_neg ha2, hi, hr]
  exact if_pos hlt

/-- The transfer success branch, written out: both UPDATEs computed from the
pre-read balances, then one INSERT. -/
lemma transfer_ok (s : LedgerState) (iu ru : String) (amt : ℚ) (c : Currency)
    (iacc racc : Account) (hui : isValidUserID iu = true)
    (hur : isValidUserID ru = true) (ha2 : ¬ amt ≤ 0)
    (hi : getAccountRow s iu c = some iacc) (hr : getAccountRow s ru c = some racc)
    (hge : ¬ iacc.balance < amt + amt * s.eaf.serviceFee) :
    transfer s iu ru amt c =
      ⟨Except.ok amt,
        ⟨(updateBalance
            (updateBalance s iu c (iacc.balance - (amt + amt * s.eaf.serviceFee)))
            ru c (racc.balance + amt)).accounts,
         s.transactions ++
           [{ user_id := iu, target_user_id := some ru, issuer_account_id := iacc.id,
              recipient_account_id := some racc.id,
              transaction_type := TxnType.transfer, amount := amt, exchanged_to := none,
              currency := c, target_currency := none,
              fee_paid := amt * s.eaf.serviceFee, made_at := s.now }],
         s.eaf.collectServiceFee (amt * s.eaf.serviceFee) c, s.now⟩,
        [DbEvent.beginTx, DbEvent.updateRow, DbEvent.updateRow, DbEvent.insertRow,
         DbEvent.commitTx, DbEvent.collect]⟩ := by
  unfold transfer
  rw [if_neg (not_not_intro hui), if_neg (not_not_intro hur), if_neg ha2, hi, hr]
  exact if_neg hge

/-- The exchange success branch, written out. -/
lemma exchange_ok (s : LedgerState) (uid : String) (amt : ℚ)
    (fc tc : Currency) (sacc dacc : Account) (hu : isValidUserID uid = true)
    (ha2 : ¬ amt ≤ 0) (hs : getAccountRow s uid fc = some sacc)
    (hd : getAccountRow s uid tc = some dacc)
    (hge : ¬ sacc.balance < amt + amt * s.eaf.serviceFee) :
    exchange s uid amt fc tc =
      ⟨Except.ok (),
        ⟨(updateBalance
            (updateBalance s uid fc (sacc.balance - (amt + amt * s.eaf.serviceFee)))
            uid tc (dacc.balance + s.eaf.toExchangedAmount amt fc tc)).accounts,
         s.transactions ++
           [{ user_id := uid, target_user_id := none, issuer_account_id := sacc.id,
              recipient_account_id := some dacc.id,
              transaction_type := TxnType.exchange, amount := amt,
              exchanged_to := some (s.eaf.toExchangedAmount amt fc tc), currency := fc,
              target_currency := some tc, fee_paid := amt * s.eaf.serviceFee,
              made_at := s.now }],
         s.eaf.collectServiceFee (amt * s.eaf.serviceFee) fc, s.now⟩,
        [DbEvent.beginTx, DbEvent.updateRow, DbEvent.updateRow, DbEvent.insertRow,
         DbEvent.commitTx, DbEvent.collect]⟩ := by
  unfold exchange
  rw [if_neg (not_not_intro hu), if_neg ha2, hs, hd]
  exact if_neg hge

/-! Claim theorems. -/

/-- Claim C9: converting an amount from a supported currency to the reference
currency PLN and back yields the amount again (exactly, in the rational model
of the arithmetic — the claim allows floating-point tolerance). -/
theorem claim_C9_roundTrip (e : EAF) (A : ℚ) (X : Currency)
    (hE : 0 < e.rateEUR) (hU : 0 < e.rateUSD) :
    e.toExchangedAmount (e.toExchangedAmount A X Currency.PLN) Currency.PLN X = A := by
  cases X with
  | PLN => simp [EAF.toExchangedAmount]
  | EUR =>
    simp only [EAF.toExchangedAmount, EAF.exchangeRate]
    norm_num
    exact div_mul_cancel₀ A (ne_of_gt hE)
  | USD =>
    simp only [EAF.toExchangedAmount, EAF.exchangeRate]
    norm_num
    exact div_mul_cancel₀ A (ne_of_gt hU)

/-- Witness for C9 at the configured rates, converting 7 EUR through PLN. -/
theorem claim_C9_witness :
    0 < wEAF.rateEUR ∧ 0 < wEAF.rateUSD ∧
      wEAF.toExchangedAmount (wEAF.toExchangedAmount 7 Currency.EUR Currency.PLN)
        Currency.PLN Currency.EUR = 7 :=
  ⟨by norm_num [wEAF], by norm_num [wEAF],
    claim_C9_roundTrip wEAF 7 Currency.EUR (by norm_num [wEAF]) (by norm_num [wEAF])⟩

/-- Claim C1: a deposit of a positive amount into an existing account succeeds,
sets the balance to the prior balance plus the amount minus the fee, and
appends exactly one deposit transaction whose fee_paid is the fee. -/
theorem claim_C1_deposit (s : LedgerState) (uid : String) (amt : ℚ) (c : Currency)
    (acct : Account) (hu : isValidUserID uid = true) (ha : 0 < amt)
    (hacc : getAccountRow s uid c = some acct) :
    (deposit s uid amt c).result = Except.ok () ∧
    getAccountRow (deposit s uid amt c).state uid c =
      some { acct with balance := acct.balance + amt - amt * s.eaf.serviceFee } ∧
    (deposit s uid amt c).state.transactions = s.transactions ++
      [{ user_id := uid, target_user_id := none, issuer_account_id := acct.id,
         recipient_account_id := none, transaction_type := TxnType.deposit,
         amount := amt, exchanged_to := none, currency := c, target_currency := none,
         fee_paid := amt * s.eaf.serviceFee, made_at := s.now }] := by
  have hle : ¬ amt ≤ 0 := not_le.mpr ha
  have hacc2 : s.accounts.find? (accMatches uid c) = some acct := hacc
  rw [deposit_ok s uid amt c acct hu hle hacc]
  refine ⟨rfl, ?_, rfl⟩
  rw [getAccountRow_eq]
  show (updateBalance s uid c _).accounts.find? (accMatches uid c) = _
  rw [updateBalance_accounts, find_update_self, hacc2]
  rfl

/-- Witness for C1: deposit 100 PLN at a 5 percent fee into a 1000 PLN
account. -/
theorem claim_C1_witness :
    isValidUserID wUID = true ∧ (0 : ℚ) < 100 ∧
      getAccountRow wState wUID Currency.PLN = some wAcct ∧
      ((deposit wState wUID 100 Currency.PLN).result = Except.ok () ∧
        getAccountRow (deposit wState wUID 100 Currency.PLN).state wUID Currency.PLN =
          some { wAcct with balance := wAcct.balance + 100 - 100 * wState.eaf.serviceFee } ∧
        (deposit wState wUID 100 Currency.PLN).state.transactions =
          wState.transactions ++
            [{ user_id := wUID, target_user_id := none, issuer_account_id := wAcct.id,
               recipient_account_id := none, transaction_type := TxnType.deposit,
               amount := 100, exchanged_to := none, currency := Currency.PLN,
               target_currency := none, fee_paid := 100 * wState.eaf.serviceFee,
               made_at := wState.now }]) :=
  ⟨by decide, by norm_num, by decide,
    claim_C1_deposit wState wUID 100 Currency.PLN wAcct (by decide) (by norm_num)
      (by decide)⟩

/-- Claim C2: a withdrawal whose amount plus fee exceeds the balance is
rejected with the insufficient-balance error, leaves the whole state (balance
and transaction log) unchanged, and issues no storage events at all — in
particular no BEGIN. -/
theorem claim_C2_withdrawInsufficient (s : LedgerState) (uid : String) (amt : ℚ)
    (c : Currency) (acct : Account) (hu : isValidUserID uid = true) (ha : 0 < amt)
    (hacc : getAccountRow s uid c = some acct)
    (hbal : acct.balance < amt * (1 + s.eaf.serviceFee)) :
    (withdraw s uid amt c).result = Except.error Err.insufficientBalance ∧
    (withdraw s uid amt c).state = s ∧
    (withdraw s uid amt c).events = [] := by
  have hle : ¬ amt ≤ 0 := not_le.mpr ha
  have hlt : acct.balance < amt + amt * s.eaf.serviceFee := by
    calc acct.balance < amt * (1 + s.eaf.serviceFee) := hbal
    _ = amt + amt * s.eaf.serviceFee := by ring
  rw [withdraw_insufficient s uid amt c acct hu hle hacc hlt]
  exact ⟨rfl, rfl, rfl⟩

/-- Witness for C2: withdrawing 100 PLN from the 50 PLN account fails without
opening a transaction. -/
theorem claim_C2_witness :
    isValidUserID wUID2 = true ∧ (0 : ℚ) < 100 ∧
      getAccountRow wState wUID2 Currency.PLN = some wAcct2 ∧
      wAcct2.balance < 100 * (1 + wState.eaf.serviceFee) ∧
      ((withdraw wState wUID2 100 Currency.PLN).result =
          Except.error Err.insufficientBalance ∧
        (withdraw wState wUID2 100 Currency.PLN).state = wState ∧
        (withdraw wState wUID2 100 Currency.PLN).events = []) :=
  ⟨by decide, by norm_num, by decide, by norm_num [wAcct2, wState, wEAF],
    claim_C2_withdrawInsufficient wState wUID2 100 Currency.PLN wAcct2 (by decide)
      (by norm_num) (by decide) (by norm_num [wAcct2, wState, wEAF])⟩

/-- Conversion with equal source and target currency is the identity. -/
lemma toExchangedAmount_self (e : EAF) (a : ℚ) (c : Currency) :
    e.toExchangedAmount a c c = a := by
  simp [EAF.toExchangedAmount]

/-- Claim C5: a transfer between two distinct users with existing accounts and
sufficient issuer balance succeeds, debits the issuer by the amount plus fee,
credits the recipient by exactly the amount, and appends exactly one transfer
record. -/
theorem claim_C5_transfer (s : LedgerState) (iu ru : String) (amt : ℚ) (c : Currency)
    (iacc racc : Account) (hne : iu ≠ ru) (hui : isValidUserID iu = true)
    (hur : isValidUserID ru = true) (ha : 0 < amt)
    (hi : getAccountRow s iu c = some iacc) (hr : getAccountRow s ru c = some racc)
    (hbal : amt * (1 + s.eaf.serviceFee) ≤ iacc.balance) :
    (transfer s iu ru amt c).result = Except.ok amt ∧
    getAccountRow (transfer s iu ru amt c).state iu c =
      some { iacc with balance := iacc.balance - amt * (1 + s.eaf.serviceFee) } ∧
    getAccountRow (transfer s iu ru amt c).state ru c =
      some { racc with balance := racc.balance + amt } ∧
    (transfer s iu ru amt c).state.transactions = s.transactions ++
      [{ user_id := iu, target_user_id := some ru, issuer_account_id := iacc.id,
         recipient_account_id := some racc.id, transaction_type := TxnType.transfer,
         amount := amt, exchanged_to := none, currency := c, target_currency := none,
         fee_paid := amt * s.eaf.serviceFee, made_at := s.now }] := by
  have hle : ¬ amt ≤ 0 := not_le.mpr ha
  have heq : amt * (1 + s.eaf.serviceFee) = amt + amt * s.eaf.serviceFee := by ring
  have hge : ¬ iacc.balance < amt + amt * s.eaf.serviceFee := not_lt.mpr (heq ▸ hbal)
  have hi2 : s.accounts.find? (accMatches iu c) = some iacc := hi
  have hr2 : s.accounts.find? (accMatches ru c) = some racc := hr
  rw [transfer_ok s iu ru amt c iacc racc hui hur hle hi hr hge]
  refine ⟨rfl, ?_, ?_, rfl⟩
  · rw [getAccountRow_eq]
    show ((updateBalance (updateBalance s iu c _) ru c _).accounts).find?
      (accMatches iu c) = _
    rw [updateBalance_accounts (updateBalance s iu c _),
      find_update_other iu ru c c _ (fun hh => hne hh.1),
      updateBalance_accounts, find_update_self, hi2, heq]
    rfl
  · rw [getAccountRow_eq]
    show ((updateBalance (updateBalance s iu c _) ru c _).accounts).find?
      (accMatches ru c) = _
    rw [updateBalance_accounts (updateBalance s iu c _), find_update_self,
      updateBalance_accounts, find_update_other ru iu c c _ (fun hh => hne hh.1.symm),
      hr2]
    rfl

/-- Witness for C5: transfer 100 PLN from the 1000 PLN account to the second
user. -/
theorem claim_C5_witness :
    wUID ≠ wUID2 ∧ isValidUserID wUID = true ∧ isValidUserID wUID2 = true ∧
      (0 : ℚ) < 100 ∧ getAccountRow wState wUID Currency.PLN = some wAcct ∧
      getAccountRow wState wUID2 Currency.PLN = some wAcct2 ∧
      100 * (1 + wState.eaf.serviceFee) ≤ wAcct.balance ∧
      ((transfer wState wUID wUID2 100 Currency.PLN).result = Except.ok 100 ∧
        getAccountRow (transfer wState wUID wUID2 100 Currency.PLN).state wUID
            Currency.PLN =
          some { wAcct with balance := wAcct.balance - 100 * (1 + wState.eaf.serviceFee) } ∧
        getAccountRow (transfer wState wUID wUID2 100 Currency.PLN).state wUID2
            Currency.PLN =
          some { wAcct2 with balance := wAcct2.balance + 100 } ∧
        (transfer wState wUID wUID2 100 Currency.PLN).state.transactions =
          wState.transactions ++
            [{ user_id := wUID, target_user_id := some wUID2,
               issuer_account_id := wAcct.id, recipient_account_id := some wAcct2.id,
               transaction_type := TxnType.transfer, amount := 100,
               exchanged_to := none, currency := Currency.PLN, target_currency := none,
               fee_paid := 100 * wState.eaf.serviceFee, made_at := wState.now }]) :=
  ⟨by decide, by decide, by decide, by norm_num, by decide, by decide,
    by norm_num [wState, wEAF, wAcct],
    claim_C5_transfer wState wUID wUID2 100 Currency.PLN wAcct wAcct2 (by decide)
      (by decide) (by decide) (by norm_num) (by decide) (by decide)
      (by norm_num [wState, wEAF, wAcct])⟩

/-- Claim C10: when the two balance UPDATEs of one operation hit the same
account row — a self-transfer in one currency, or an exchange with equal
source and target currency — the second UPDATE, computed from the pre-read
balance, overwrites the first, leaving the balance at B + A. -/
theorem claim_C10_sameRowDoubleUpdate (s : LedgerState) (uid : String) (amt : ℚ)
    (c : Currency) (acct : Account) (hu : isValidUserID uid = true) (ha : 0 < amt)
    (hacc : getAccountRow s uid c = some acct)
    (hbal : amt * (1 + s.eaf.serviceFee) ≤ acct.balance) :
    (transfer s uid uid amt c).result = Except.ok amt ∧
    getAccountRow (transfer s uid uid amt c).state uid c =
      some { acct with balance := acct.balance + amt } ∧
    (exchange s uid amt c c).result = Except.ok () ∧
    getAccountRow (exchange s uid amt c c).state uid c =
      some { acct with balance := acct.balance + amt } := by
  have hle : ¬ amt ≤ 0 := not_le.mpr ha
  have heq : amt * (1 + s.eaf.serviceFee) = amt + amt * s.eaf.serviceFee := by ring
  have hge : ¬ acct.balance < amt + amt * s.eaf.serviceFee := not_lt.mpr (heq ▸ hbal)
  have hacc2 : s.accounts.find? (accMatches uid c) = some acct := hacc
  refine ⟨?_, ?_, ?_, ?_⟩
  · rw [transfer_ok s uid uid amt c acct acct hu hu hle hacc hacc hge]
  · rw [transfer_ok s uid uid amt c acct acct hu hu hle hacc hacc hge,
      getAccountRow_eq]
    show ((updateBalance (updateBalance s uid c _) uid c _).accounts).find?
      (accMatches uid c) = _
    rw [updateBalance_accounts (updateBalance s uid c _), find_update_self,
      updateBalance_accounts, find_update_self, hacc2]
    rfl
  · rw [exchange_ok s uid amt c c acct acct hu hle hacc hacc hge]
  · rw [exchange_ok s uid amt c c acct acct hu hle hacc hacc hge, getAccountRow_eq]
    show ((updateBalance (updateBalance s uid c _) uid c _).accounts).find?
      (accMatches uid c) = _
    rw [updateBalance_accounts (updateBalance s uid c _), find_update_self,
      updateBalance_accounts, find_update_self, hacc2, toExchangedAmount_self]
    rfl

/-- Witness for C10: a self-transfer of 100 PLN on the 1000 PLN account leaves
1100 PLN. -/
theorem claim_C10_witness :
    isValidUserID wUID = true ∧ (0 : ℚ) < 100 ∧
      getAccountRow wState wUID Currency.PLN = some wAcct ∧
      100 * (1 + wState.eaf.serviceFee) ≤ wAcct.balance ∧
      ((transfer wState wUID wUID 100 Currency.PLN).result = Except.ok 100 ∧
        getAccountRow (transfer wState wUID wUID 100 Currency.PLN).state wUID
            Currency.PLN = some { wAcct with balance := wAcct.balance + 100 } ∧
        (exchange wState wUID 100 Currency.PLN Currency.PLN).result = Except.ok () ∧
        getAccountRow (exchange wState wUID 100 Currency.PLN Currency.PLN).state wUID
            Currency.PLN = some { wAcct with balance := wAcct.balance + 100 }) :=
  ⟨by decide, by norm_num, by decide, by norm_num [wState, wEAF, wAcct],
    claim_C10_sameRowDoubleUpdate wState wUID 100 Currency.PLN wAcct (by decide)
      (by norm_num) (by decide) (by norm_num [wState, wEAF, wAcct])⟩

/-- Claim C7 (amended): for a syntactically valid user id and supported
currency with no account, getAccount returns an absent result, but getBalance
raises the TypeError of reading the balance property of undefined rather than
returning an absent result. -/
theorem claim_C7_amended (s : LedgerState) (uid : String) (c : Currency)
    (hu : isValidUserID uid = true) (hnone : getAccountRow s uid c = none) :
    getAccount s uid c = Except.ok none ∧
    getBalance s uid c = Except.error Err.typeErr := by
  constructor
  · simp [getAccount, hu, hnone]
  · simp [getBalance, hu, hnone]

/-- Counterexample for C7 as stated: the first user has no EUR account in the
populated state, the id is syntactically valid, and getBalance surfaces an
exception (the TypeError), not an absent result. -/
theorem claim_C7_counterexample :
    isValidUserID wUID = true ∧
      getAccountRow wState wUID Currency.EUR = none ∧
      getBalance wState wUID Currency.EUR = Except.error Err.typeErr :=
  ⟨by decide, by decide, rfl⟩

/-- Witness for the amended C7 at the same concrete input. -/
theorem claim_C7_witness :
    isValidUserID wUID = true ∧
      getAccountRow wState wUID Currency.EUR = none ∧
      (getAccount wState wUID Currency.EUR = Except.ok none ∧
        getBalance wState wUID Currency.EUR = Except.error Err.typeErr) :=
  ⟨by decide, by decide,
    claim_C7_amended wState wUID Currency.EUR (by decide) (by decide)⟩

/-- One loop iteration adds exactly the per-transaction contribution. -/
lemma profitStep_eq (e : EAF) (uid : String) (types : Option (List TxnType))
    (r : ProfitResults) (t : Txn) :
    profitStep e uid types r t =
      ⟨r.totalProfits + (txnContrib e uid types t).1,
       r.totalFees + (txnContrib e uid types t).2.1,
       r.transactions ++ (txnContrib e uid types t).2.2⟩ := by
  unfold profitStep txnContrib
  cases hty : t.transaction_type with
  | deposit =>
    by_cases hs : typeSkips types TxnType.deposit
    · simp [hs]
    · simp [hs]
  | withdrawal =>
    by_cases hs : typeSkips types TxnType.withdrawal
    · simp [hs]
    · simp [hs, ProfitResults.mk.injEq]
      ring
  | transfer =>
    by_cases hs : typeSkips types TxnType.transfer
    · simp [hs]
    · by_cases hin : t.target_user_id == some uid
      · by_cases hout : t.user_id == uid
        · simp [hs, hin, hout, ProfitResults.mk.injEq, List.append_assoc]
          ring
        · simp [hs, hin, hout]
      · by_cases hout : t.user_id == uid
        · simp [hs, hin, hout, ProfitResults.mk.injEq]
          ring
        · simp [hs, hin, hout]
  | exchange =>
    by_cases hs : typeSkips types TxnType.exchange
    · simp [hs]
    · simp [hs]

/-- The accumulation loop decomposes into three independent folds: a sum of
profit deltas, a sum of fee deltas, and a concatenation of pushed records. -/
lemma foldl_profitStep (e : EAF) (uid : String) (types : Option (List TxnType))
    (l : List Txn) : ∀ r : ProfitResults,
    l.foldl (profitStep e uid types) r =
      ⟨r.totalProfits + (l.map fun t => (txnContrib e uid types t).1).sum,
       r.totalFees + (l.map fun t => (txnContrib e uid types t).2.1).sum,
       r.transactions ++ pushesOf e uid types l⟩ := by
  induction l with
  | nil => intro r; simp [pushesOf]
  | cons t ts ih =>
    intro r
    rw [List.foldl_cons, profitStep_eq, ih]
    simp only [List.map_cons, List.sum_cons, pushesOf, ProfitResults.mk.injEq]
    refine ⟨by ring, by ring, by rw [List.append_assoc]⟩

/-- Claim C6 (amended): getUserProfits aggregates the transactions matched by
the WHERE clause as actually parenthesized — the user as source is matched
regardless of the time range, and only the named-counterparty branch of a
transfer is restricted to the inclusive time range — with the optional type
filter applied uniformly afterwards and the contributions the claim states
(deposit +(amount − fee), withdrawal −(amount + fee), transfer as sender
−(amount + fee), transfer as named recipient +amount, exchange 0, fees for
every matched type except transfer-as-recipient, all converted to PLN). -/
theorem claim_C6_amended (s : LedgerState) (o : ProfitsOptions)
    (hu : isValidUserID o.userID = true) :
    getUserProfits s o = Except.ok
      ⟨((s.transactions.filter (sqlProfitsMatch o)).map
          fun t => (txnContrib s.eaf o.userID o.transactionTypes t).1).sum,
       ((s.transactions.filter (sqlProfitsMatch o)).map
          fun t => (txnContrib s.eaf o.userID o.transactionTypes t).2.1).sum,
       pushesOf s.eaf o.userID o.transactionTypes
         (s.transactions.filter (sqlProfitsMatch o))⟩ := by
  unfold getUserProfits
  rw [if_neg (not_not_intro hu), foldl_profitStep]
  simp

/-- Counterexample for C6 as stated: a deposit made at time 0 with the user as
source is aggregated by the code although the query restricts to time 10 and
later, while the claimed uniform filtering would exclude it. -/
theorem claim_C6_counterexample :
    getUserProfits cState cOpts = Except.ok ⟨95, 5, [cTxn]⟩ ∧
    getUserProfitsClaimed cState cOpts = Except.ok ⟨0, 0, []⟩ ∧
    ((⟨95, 5, [cTxn]⟩ : ProfitResults) ≠ ⟨0, 0, []⟩) := by
  refine ⟨?_, ?_, by decide⟩
  · unfold getUserProfits
    rw [if_neg (not_not_intro (by decide : isValidUserID cOpts.userID = true))]
    rw [show cState.transactions.filter (sqlProfitsMatch cOpts) = [cTxn] from by decide]
    rw [List.foldl_cons, List.foldl_nil]
    simp [profitStep, typeSkips, toPLN, EAF.toExchangedAmount, cTxn, cState, cOpts,
      ProfitResults.mk.injEq]
    norm_num
  · unfold getUserProfitsClaimed
    rw [if_neg (not_not_intro (by decide : isValidUserID cOpts.userID = true))]
    rw [show cState.transactions.filter (claimProfitsMatch cOpts) = [] from by decide]
    simp [pushesOf]

/-- Witness for the amended C6 at the concrete probe query. -/
theorem claim_C6_witness :
    isValidUserID cOpts.userID = true ∧
      getUserProfits cState cOpts = Except.ok
        ⟨((cState.transactions.filter (sqlProfitsMatch cOpts)).map
            fun t => (txnContrib cState.eaf cOpts.userID cOpts.transactionTypes t).1).sum,
         ((cState.transactions.filter (sqlProfitsMatch cOpts)).map
            fun t => (txnContrib cState.eaf cOpts.userID cOpts.transactionTypes t).2.1).sum,
         pushesOf cState.eaf cOpts.userID cOpts.transactionTypes
           (cState.transactions.filter (sqlProfitsMatch cOpts))⟩ :=
  ⟨by decide, claim_C6_amended cState cOpts (by decide)⟩

/-- Counterexample for C8 as stated: with nothing preloaded and the service
fee variable absent (parseFloat yields NaN), construction still succeeds while
the claim requires it to fail; and with SERVICE_FEE preloaded, construction
succeeds with both exchange rates left at -1, while the claim requires every
rate to be positive on success. -/
theorem claim_C8_counterexample :
    constructEAF ⟨false, none, some 1, some 1⟩ = Except.ok ⟨none, 1, 1⟩ ∧
    constructEAF ⟨true, none, none, none⟩ = Except.ok ⟨some 0, -1, -1⟩ :=
  ⟨rfl, rfl⟩

/-- Claim C8 (amended): construction fails exactly when the loading block runs
(SERVICE_FEE not already set) and some exchange rate is absent or not a
positive number; the service-fee rate itself is never validated (it is stored
as parsed, NaN included), and when the block is skipped the rates keep their
-1 initializers. -/
theorem claim_C8_amended (env : EnvConfig) :
    ((∃ init : EAFInit, constructEAF env = Except.ok init) ↔
      (env.serviceFeePreset = true ∨
        (validRate env.exchangeEUR = true ∧ validRate env.exchangeUSD = true))) ∧
    (env.serviceFeePreset = false →
      ∀ init : EAFInit, constructEAF env = Except.ok init →
        0 < init.rateEUR ∧ 0 < init.rateUSD ∧ init.serviceFee = env.serviceFee) := by
  constructor
  · unfold constructEAF
    by_cases hp : env.serviceFeePreset
    · simp [hp]
    · by_cases hE : validRate env.exchangeEUR
      · by_cases hU : validRate env.exchangeUSD
        · simp [hp, hE, hU]
        · simp [hp, hE, hU]
      · simp [hp, hE]
  · intro hp init hok
    unfold constructEAF at hok
    rw [if_neg (by simp [hp])] at hok
    by_cases hE : validRate env.exchangeEUR
    · by_cases hU : validRate env.exchangeUSD
      · rw [if_neg (not_not_intro hE), if_neg (not_not_intro hU)] at hok
        cases hok
        refine ⟨?_, ?_, rfl⟩
        · rcases henv : env.exchangeEUR with _ | q
          · rw [henv] at hE
            simp [validRate] at hE
          · rw [henv] at hE
            simp only [validRate, decide_eq_true_eq] at hE
            simpa [henv] using hE
        · rcases henv : env.exchangeUSD with _ | q
          · rw [henv] at hU
            simp [validRate] at hU
          · rw [henv] at hU
            simp only [validRate, decide_eq_true_eq] at hU
            simpa [henv] using hU
      · rw [if_neg (not_not_intro hE), if_pos hU] at hok
        exact Except.noConfusion hok
    · rw [if_pos hE] at hok
      exact Except.noConfusion hok

/-- Witness for the amended C8 at the concrete environment. -/
theorem claim_C8_witness :
    wEnv.serviceFeePreset = false ∧ constructEAF wEnv = Except.ok wInit ∧
      (0 < wInit.rateEUR ∧ 0 < wInit.rateUSD ∧ wInit.serviceFee = wEnv.serviceFee) :=
  ⟨rfl, rfl, (claim_C8_amended wEnv).2 rfl wInit rfl⟩

/-- Claim C3: the queued execution of any list of submitted mutating commands
(one at a time, in FIFO submission order, per the spec-modelled queue) leaves
exactly the state of folding the commands sequentially in submission order —
in particular every account balance agrees with the sequential application. -/
theorem claim_C3_queueSerialization (s : LedgerState) (cmds : List Cmd) :
    runQueue s cmds = List.foldl applyCmd s cmds ∧
    ∀ (uid : String) (c : Currency),
      getAccountRow (runQueue s cmds) uid c =
        getAccountRow (List.foldl applyCmd s cmds) uid c := by
  induction cmds generalizing s with
  | nil => exact ⟨rfl, fun uid c => rfl⟩
  | cons c cs ih =>
    refine ⟨(ih (applyCmd s c)).1, fun uid cc => ?_⟩
    rw [show runQueue s (c :: cs) = runQueue (applyCmd s c) cs from rfl,
      (ih (applyCmd s c)).1]
    rfl

/-- A command that does not commit leaves the state as it was. -/
lemma stepSpec_refl (s : LedgerState) : StepSpec s s :=
  ⟨[], by simp, by simp, rfl, rfl, rfl, by simp⟩

/-- Conversion depends only on the configured rates. -/
lemma toExchangedAmount_congr (e e2 : EAF) (hE : e2.rateEUR = e.rateEUR)
    (hU : e2.rateUSD = e.rateUSD) (a : ℚ) (src dst : Currency) :
    e2.toExchangedAmount a src dst = e.toExchangedAmount a src dst := by
  unfold EAF.toExchangedAmount EAF.exchangeRate
  cases src <;> cases dst <;> simp [hE, hU]

/-- With positive configured rates, conversion preserves non-negativity. -/
lemma toExchangedAmount_nonneg (e : EAF) (a : ℚ) (src dst : Currency)
    (hE : 0 < e.rateEUR) (hU : 0 < e.rateUSD) (ha : 0 ≤ a) :
    0 ≤ e.toExchangedAmount a src dst := by
  have hr : ∀ c, 0 < e.exchangeRate c := by
    intro c
    cases c <;> simp [EAF.exchangeRate, hE, hU]
  unfold EAF.toExchangedAmount
  split_ifs
  · exact ha
  · exact div_nonneg ha (hr src).le
  · exact mul_nonneg ha (hr dst).le
  · exact mul_nonneg (div_nonneg ha (hr src).le) (hr dst).le

/-- One queued deposit satisfies the step relation. -/
lemma stepSpec_deposit (s : LedgerState) (uid : String) (amt : ℚ) (c : Currency) :
    StepSpec s (deposit s uid amt c).state := by
  unfold deposit
  split
  · exact stepSpec_refl s
  · split
    next ha =>
      exact stepSpec_refl s
    next ha =>
      split
      · exact stepSpec_refl s
      · refine ⟨[_], rfl, ?_, rfl, rfl, rfl, ?_⟩
        · simp [EAF.collectServiceFee, feeOfTxn]
        · intro hsf t ht
          simp only [List.mem_singleton] at ht
          subst ht
          exact mul_nonneg (lt_of_not_le ha).le hsf

/-- One queued withdrawal satisfies the step relation. -/
lemma stepSpec_withdraw (s : LedgerState) (uid : String) (amt : ℚ) (c : Currency) :
    StepSpec s (withdraw s uid amt c).state := by
  unfold withdraw
  split
  · exact stepSpec_refl s
  · split
    next ha =>
      exact stepSpec_refl s
    next ha =>
      split
      · exact stepSpec_refl s
      · dsimp only
        split
        · exact stepSpec_refl s
        · refine ⟨[_], rfl, ?_, rfl, rfl, rfl, ?_⟩
          · simp [EAF.collectServiceFee, feeOfTxn]
          · intro hsf t ht
            simp only [List.mem_singleton] at ht
            subst ht
            exact mul_nonneg (lt_of_not_le ha).le hsf

/-- One queued transfer satisfies the step relation. -/
lemma stepSpec_transfer (s : LedgerState) (iu ru : String) (amt : ℚ) (c : Currency) :
    StepSpec s (transfer s iu ru amt c).state := by
  unfold transfer
  split
  · exact stepSpec_refl s
  · split
    · exact stepSpec_refl s
    · split
      next ha =>
        exact stepSpec_refl s
      next ha =>
        split
        · exact stepSpec_refl s
        · split
          · exact stepSpec_refl s
          · dsimp only
            split
            · exact stepSpec_refl s
            · refine ⟨[_], rfl, ?_, rfl, rfl, rfl, ?_⟩
              · simp [EAF.collectServiceFee, feeOfTxn]
              · intro hsf t ht
                simp only [List.mem_singleton] at ht
                subst ht
                exact mul_nonneg (lt_of_not_le ha).le hsf

/-- One queued exchange satisfies the step relation. -/
lemma stepSpec_exchange (s : LedgerState) (uid : String) (amt : ℚ)
    (fc tc : Currency) : StepSpec s (exchange s uid amt fc tc).state := by
  unfold exchange
  split
  · exact stepSpec_refl s
  · split
    next ha =>
      exact stepSpec_refl s
    next ha =>
      split
      · exact stepSpec_refl s
      · split
        · exact stepSpec_refl s
        · dsimp only
          split
          · exact stepSpec_refl s
          · refine ⟨[_], rfl, ?_, rfl, rfl, rfl, ?_⟩
            · simp [EAF.collectServiceFee, feeOfTxn]
            · intro hsf t ht
              simp only [List.mem_singleton] at ht
              subst ht
              exact mul_nonneg (lt_of_not_le ha).le hsf

/-- Every queued command satisfies the step relation. -/
lemma stepSpec_applyCmd (s : LedgerState) (c : Cmd) : StepSpec s (applyCmd s c) := by
  cases c with
  | deposit uid a cc => exact stepSpec_deposit s uid a cc
  | withdraw uid a cc => exact stepSpec_withdraw s uid a cc
  | transfer iu ru a cc => exact stepSpec_transfer s iu ru a cc
  | exchange uid a f t => exact stepSpec_exchange s uid a f t

/-- Along any queued run, the fee pool grows by exactly the PLN value of the
fees of the appended transaction rows, and the configured rates persist. -/
lemma pool_foldl (cmds : List Cmd) : ∀ s : LedgerState,
    (List.foldl applyCmd s cmds).eaf.totalCollectedFeesPLN +
        (s.transactions.map (feeOfTxn s.eaf)).sum =
      s.eaf.totalCollectedFeesPLN +
        (((List.foldl applyCmd s cmds).transactions).map (feeOfTxn s.eaf)).sum ∧
    (List.foldl applyCmd s cmds).eaf.serviceFee = s.eaf.serviceFee ∧
    (List.foldl applyCmd s cmds).eaf.rateEUR = s.eaf.rateEUR ∧
    (List.foldl applyCmd s cmds).eaf.rateUSD = s.eaf.rateUSD := by
  induction cmds with
  | nil => exact fun s => ⟨rfl, rfl, rfl, rfl⟩
  | cons c cs ih =>
    intro s
    obtain ⟨ts, htx, hpool, hsf, hE, hU, _⟩ := stepSpec_applyCmd s c
    obtain ⟨ih1, ih2, ih3, ih4⟩ := ih (applyCmd s c)
    have hfe : feeOfTxn (applyCmd s c).eaf = feeOfTxn s.eaf := by
      funext t
      exact toExchangedAmount_congr _ _ hE hU _ _ _
    rw [hfe] at ih1
    rw [List.foldl_cons]
    refine ⟨?_, ih2.trans hsf, ih3.trans hE, ih4.trans hU⟩
    rw [htx, hpool] at ih1
    simp only [List.map_append, List.sum_append] at ih1
    linarith [ih1]

/-- The deposit trace obeys the commit-then-collect discipline. -/
lemma events_deposit (s : LedgerState) (uid : String) (amt : ℚ) (c : Currency) :
    collectAfterCommit (deposit s uid amt c).events := by
  unfold deposit
  split
  · exact Or.inl rfl
  · split
    · exact Or.inl rfl
    · split
      · exact Or.inl rfl
      · exact Or.inr ⟨[DbEvent.beginTx, DbEvent.updateRow, DbEvent.insertRow], rfl,
          by decide, by decide⟩

/-- The withdraw trace obeys the commit-then-collect discipline. -/
lemma events_withdraw (s : LedgerState) (uid : String) (amt : ℚ) (c : Currency) :
    collectAfterCommit (withdraw s uid amt c).events := by
  unfold withdraw
  split
  · exact Or.inl rfl
  · split
    · exact Or.inl rfl
    · split
      · exact Or.inl rfl
      · dsimp only
        split
        · exact Or.inl rfl
        · exact Or.inr ⟨[DbEvent.beginTx, DbEvent.updateRow, DbEvent.insertRow], rfl,
            by decide, by decide⟩

/-- The transfer trace obeys the commit-then-collect discipline. -/
lemma events_transfer (s : LedgerState) (iu ru : String) (amt : ℚ) (c : Currency) :
    collectAfterCommit (transfer s iu ru amt c).events := by
  unfold transfer
  split
  · exact Or.inl rfl
  · split
    · exact Or.inl rfl
    · split
      · exact Or.inl rfl
      · split
        · exact Or.inl rfl
        · split
          · exact Or.inl rfl
          · dsimp only
            split
            · exact Or.inl rfl
            · exact Or.inr ⟨[DbEvent.beginTx, DbEvent.updateRow, DbEvent.updateRow,
                DbEvent.insertRow], rfl, by decide, by decide⟩

/-- The exchange trace obeys the commit-then-collect discipline. -/
lemma events_exchange (s : LedgerState) (uid : String) (amt : ℚ)
    (fc tc : Currency) : collectAfterCommit (exchange s uid amt fc tc).events := by
  unfold exchange
  split
  · exact Or.inl rfl
  · split
    · exact Or.inl rfl
    · split
      · exact Or.inl rfl
      · split
        · exact Or.inl rfl
        · dsimp only
          split
          · exact Or.inl rfl
          · exact Or.inr ⟨[DbEvent.beginTx, DbEvent.updateRow, DbEvent.updateRow,
              DbEvent.insertRow], rfl, by decide, by decide⟩

/-- Claim C4: over any queued run from a fresh log, the fee pool equals its
initial value plus the sum of the PLN values of the fee_paid of all committed
transaction rows; each single command can only increase the pool (for a
non-negative fee rate and positive exchange rates); and every command trace
collects the fee exactly once, immediately after its commit, or not at all
when nothing commits. -/
theorem claim_C4_feePool (s0 : LedgerState) (cmds : List Cmd)
    (h0 : s0.transactions = []) :
    (List.foldl applyCmd s0 cmds).eaf.totalCollectedFeesPLN =
      s0.eaf.totalCollectedFeesPLN +
        (((List.foldl applyCmd s0 cmds).transactions).map (feeOfTxn s0.eaf)).sum ∧
    (∀ (s : LedgerState) (c : Cmd), 0 ≤ s.eaf.serviceFee → 0 < s.eaf.rateEUR →
      0 < s.eaf.rateUSD →
      s.eaf.totalCollectedFeesPLN ≤ (applyCmd s c).eaf.totalCollectedFeesPLN) ∧
    (∀ (s : LedgerState) (c : Cmd), collectAfterCommit (runCmd s c).2) := by
  refine ⟨?_, ?_, ?_⟩
  · have h := (pool_foldl cmds s0).1
    rw [h0] at h
    simpa using h
  · intro s c hsf hE hU
    obtain ⟨ts, _, hpool, _, _, _, hfee⟩ := stepSpec_applyCmd s c
    rw [hpool]
    have hnn : 0 ≤ (ts.map (feeOfTxn s.eaf)).sum := by
      apply List.sum_nonneg
      intro x hx
      obtain ⟨t, ht, rfl⟩ := List.mem_map.mp hx
      exact toExchangedAmount_nonneg _ _ _ _ hE hU (hfee hsf t ht)
    linarith
  · intro s c
    cases c with
    | deposit uid a cc => exact events_deposit s uid a cc
    | withdraw uid a cc => exact events_withdraw s uid a cc
    | transfer iu ru a cc => exact events_transfer s iu ru a cc
    | exchange uid a f t => exact events_exchange s uid a f t

/-- Witness for C4 at the populated state (whose log is empty) and a
single-deposit load. -/
theorem claim_C4_witness :
    wState.transactions = [] ∧
      ((List.foldl applyCmd wState wCmds).eaf.totalCollectedFeesPLN =
        wState.eaf.totalCollectedFeesPLN +
          (((List.foldl applyCmd wState wCmds).transactions).map
            (feeOfTxn wState.eaf)).sum ∧
      (∀ (s : LedgerState) (c : Cmd), 0 ≤ s.eaf.serviceFee → 0 < s.eaf.rateEUR →
        0 < s.eaf.rateUSD →
        s.eaf.totalCollectedFeesPLN ≤ (applyCmd s c).eaf.totalCollectedFeesPLN) ∧
      (∀ (s : LedgerState) (c : Cmd), collectAfterCommit (runCmd s c).2)) :=
  ⟨rfl, claim_C4_feePool wState wCmds rfl⟩

end Crustlab
